import Mathlib

/-!
Verification development for the changelog generator of the oss-release
repository (`ossrelease/gen_changelog.py`).

The Python source is shallowly embedded below.  Conventions used throughout:

* Python strings are `String`, scanned as `List Char`; comparisons between
  strings are code-point lexicographic, as in CPython.
* Python `set` objects are modelled as duplicate-free lists kept in ascending
  code-point order.  CPython leaves set iteration order unspecified; the
  embedding canonicalizes every set to its sorted order, which is also the
  order the `JSONSetEncoder` of the source serializes sets in.
* Python `dict` objects are association lists in insertion order, with
  first-match lookup (dict keys are unique at the call sites embedded here).
* Recursive Python helpers are embedded with an explicit fuel argument where
  the recursion is not structural; each use supplies fuel that is provably or
  evidently ample, and the fuel-exhausted branch is unreachable there.
-/

/-! ## Generic string and collection helpers -/

/-- Code-point lexicographic comparison of character lists: the order CPython
uses to compare `str` values (`sorted`, `<`). -/
def charsLe : List Char → List Char → Bool
  | [], _ => true
  | _ :: _, [] => false
  | a :: as, b :: bs =>
    if a.toNat < b.toNat then true
    else if b.toNat < a.toNat then false
    else charsLe as bs

/-- CPython string comparison `a <= b`. -/
def strLeb (a b : String) : Bool :=
  charsLe a.toList b.toList

/-- The ordering relation used for all `sorted(...)` calls of the source. -/
def strle (a b : String) : Prop :=
  strLeb a b = true

instance : DecidableRel strle :=
  fun a b => inferInstanceAs (Decidable (strLeb a b = true))

/-- Embedding of `sorted(...)` applied to a collection of strings. -/
def sortStrs (l : List String) : List String :=
  List.insertionSort strle l

/-- Adding one element to a Python set of strings (canonical sorted-list
model): ordered insert, no duplicates. -/
def setAdd : List String → String → List String
  | [], x => [x]
  | y :: ys, x =>
    if x = y then y :: ys
    else if strLeb x y then x :: y :: ys
    else y :: setAdd ys x

/-- Python dict lookup on an association list (first match). -/
def assocFind {α : Type} : List (String × α) → String → Option α
  | [], _ => none
  | (k2, v) :: rest, k => if k = k2 then some v else assocFind rest k

/-- Python dict assignment: replace the value in place if the key exists
(keeping its position, as CPython dicts do), else append. -/
def assocSet {α : Type} : List (String × α) → String → α → List (String × α)
  | [], k, v => [(k, v)]
  | (k2, v2) :: rest, k, v =>
    if k = k2 then (k, v) :: rest else (k2, v2) :: assocSet rest k v

/-- Python `s.startswith(pre)`, decided on the character lists. -/
def strStartsWith (s pre : String) : Bool :=
  List.take pre.toList.length s.toList == pre.toList

/-- Python `s[n:]` on character counts. -/
def strDrop (s : String) (n : Nat) : String :=
  String.mk (s.toList.drop n)

/-- Substring test on character lists, scanning left to right. -/
def listHasSub (needle : List Char) : List Char → Bool
  | [] => needle.isEmpty
  | c :: cs => (List.take needle.length (c :: cs) == needle) || listHasSub needle cs

/-- Python `needle in haystack` on strings. -/
def strContains (haystack needle : String) : Bool :=
  listHasSub needle.toList haystack.toList

/-- Python `c in s` for a single character. -/
def strContainsChar (s : String) (c : Char) : Bool :=
  s.toList.contains c

/-- One step of Python `str.replace`: scan left to right, replacing each
non-overlapping occurrence.  Fuel bounds the scan length. -/
def strReplaceAux (old new : List Char) : Nat → List Char → List Char
  | 0, cs => cs
  | _ + 1, [] => []
  | fuel + 1, c :: cs =>
    if List.take old.length (c :: cs) == old then
      new ++ strReplaceAux old new fuel (List.drop old.length (c :: cs))
    else
      c :: strReplaceAux old new fuel cs

/-- Python `s.replace(old, new)` (all occurrences; `old` is nonempty at every
call site embedded here). -/
def strReplace (s old new : String) : String :=
  String.mk (strReplaceAux old.toList new.toList (s.toList.length + 1) s.toList)

/-- Python `s.lstrip(c)` for a single strip character. -/
def lstripChar (s : String) (c : Char) : String :=
  String.mk (s.toList.dropWhile (· = c))

/-- Python `issue.lstrip(h)` with the hash character, as used by the source. -/
def lstripHash (s : String) : String :=
  lstripChar s '#'

/-- Python `s.lstrip()` (drop leading whitespace). -/
def strLstrip (s : String) : String :=
  String.mk (s.toList.dropWhile Char.isWhitespace)

/-- Python `s.split(c)` for a single separator character: always returns at
least one part; separators at the ends produce empty parts. -/
def splitOnChar (sep : Char) : List Char → List String
  | [] => [""]
  | c :: cs =>
    let rest := splitOnChar sep cs
    if c = sep then "" :: rest
    else
      match rest with
      | [] => [String.mk [c]]
      | r :: rs => String.mk (c :: r.toList) :: rs

/-- Python `s.splitlines()` restricted to newline separators (the only line
breaks occurring in the embedded data): the empty string yields no lines and a
trailing newline does not produce a trailing empty line. -/
def strSplitlines (s : String) : List String :=
  if s = "" then []
  else
    let parts := splitOnChar '\n' s.toList
    if s.toList.getLast? = some '\n' then parts.dropLast else parts

/-- A string of `n` repetitions of one character (Python `ch * n`). -/
def repeatChar (c : Char) (n : Nat) : String :=
  String.mk (List.replicate n c)

/-! ## Reference Extractor

Embedding of `Changelog.issue_re`,
`((?:saltstack/[a-zA-Z0-9-]+#|#|bp-)(\d+))(…)?`, and of `findall` over it.
Group 1 is the full identifier (head plus digits, without the ellipsis),
group 2 the numeric portion, group 3 the optional trailing ellipsis
character. -/

/-- One `findall` tuple: (group 1, group 2, whether group 3 matched). -/
structure RefMatch where
  full : String
  num : String
  ell : Bool
deriving DecidableEq

/-- The character class `[a-zA-Z0-9-]` (ASCII, as in the Python regex). -/
def isRepoNameChar (c : Char) : Bool :=
  c.isAlpha || c.isDigit || c = '-'

/-- The alternation `(?:saltstack/[a-zA-Z0-9-]+#|#|bp-)` at the head of the
match.  The three alternatives start with distinct characters, so trying them
in regex order never requires backtracking across alternatives; inside the
first alternative only the maximal `[a-zA-Z0-9-]+` run can be followed by the
hash, because the hash is not in the character class. -/
def matchRefHead (cs : List Char) : Option (List Char × List Char) :=
  if List.take 10 cs == "saltstack/".toList then
    let rest := List.drop 10 cs
    let run := rest.takeWhile isRepoNameChar
    if run.isEmpty then none
    else
      match rest.drop run.length with
      | '#' :: rest2 => some ("saltstack/".toList ++ run ++ [ '#' ], rest2)
      | _ => none
  else
    match cs with
    | '#' :: rest => some ([ '#' ], rest)
    | 'b' :: 'p' :: '-' :: rest => some ([ 'b', 'p', '-' ], rest)
    | _ => none

/-- Attempt to match `issue_re` exactly at the head of `cs`; on success return
the match and the remaining characters (after the ellipsis when group 3
matched, since the regex engine resumes after the whole match). -/
def matchRefAt (cs : List Char) : Option (RefMatch × List Char) :=
  match matchRefHead cs with
  | none => none
  | some (head, rest) =>
    let ds := rest.takeWhile Char.isDigit
    if ds.isEmpty then none
    else
      match rest.drop ds.length with
      | '…' :: rest3 =>
        some ({ full := String.mk (head ++ ds), num := String.mk ds, ell := true }, rest3)
      | rest2 =>
        some ({ full := String.mk (head ++ ds), num := String.mk ds, ell := false }, rest2)

/-- Left-to-right non-overlapping scan, as `re.findall` performs it: advance
one character on failure, resume after the match end on success.  Fuel bounds
the scan; every step consumes at least one character. -/
def findAllAux : Nat → List Char → List RefMatch
  | 0, _ => []
  | _ + 1, [] => []
  | fuel + 1, c :: cs =>
    match matchRefAt (c :: cs) with
    | some (m, rest) => m :: findAllAux fuel rest
    | none => findAllAux fuel cs

/-- `self.issue_re.findall(line)`. -/
def findAll (line : String) : List RefMatch :=
  findAllAux (line.toList.length + 1) line.toList

/-- The key a non-ellipsis match contributes to `release_issues`
(`gen_changelog.py` lines 256-259): foreign-qualified matches keep their full
form, bare and backport matches keep only the numeric portion. -/
def extractKey (m : RefMatch) : String :=
  if strStartsWith m.full "saltstack/" then m.full else m.num

/-- The inner loop of `__get_issue_data` (lines 245-262) for one log line:
every match is considered and matches whose group 3 (ellipsis) fired are
skipped before the set insertion. -/
def addLineIssues (acc : List String) (line : String) : List String :=
  (findAll line).foldl
    (fun acc2 m => if m.ell then acc2 else setAdd acc2 (extractKey m)) acc

/-- The full `release_issues` set gathered from the captured log lines. -/
def releaseIssuesOf (gitLog : List String) : List String :=
  gitLog.foldl addLineIssues []

/-! ## Data model

The source stores the entire GitHub response dict for each issue and adds the
keys `type` and `related`.  The embedding models the projection the program
reads: `type`, `title`, `user.login`, `body`, `closed_at` and `related`.  The
`description` key (line 371) is written but never read and is omitted.  The
`type` field only ever receives the strings `PR` and `ISSUE` (line 370), which
the embedding closes into a two-constructor kind. -/

inductive IssueKind where
  | PR
  | ISSUE
deriving DecidableEq, Repr

/-- The string stored in the `type` field. -/
def kindStr : IssueKind → String
  | .PR => "PR"
  | .ISSUE => "ISSUE"

/-- The projection of one resolved issue dict that the program reads.
`related` is a Python set (canonical sorted-list model); it is empty exactly
when the source dict lacks the `related` key, which the source only ever reads
through `get(.., [])`. -/
structure Issue where
  kind : IssueKind
  title : String
  userLogin : String
  body : Option String
  closedAt : Option String
  related : List String
deriving DecidableEq, Repr

/-- The projection of one raw GitHub API response (`__query_github` result):
whether the `pull_request` key is present, and the fields the program reads. -/
structure RawIssue where
  pull : Bool
  title : String
  body : Option String
  userLogin : String
  closedAt : Option String
deriving DecidableEq, Repr

/-- A stub of the issue-tracking collaborator: `none` models a query that
fails (HTTP error), which `__query_github` logs and turns into `None`. -/
def Tracker : Type := String → Option RawIssue

/-! ## Issue Resolver (`Changelog.__query_issues`, lines 355-406) -/

/-- State threaded through `_gather`: the issue map, the reverse map, and the
ordered log of every `__query_github` invocation (recorded to settle the
memoization claim). -/
structure GatherSt where
  issueData : List (String × Issue)
  revmap : List (String × List String)
  queries : List String
deriving DecidableEq, Repr

/-- `issue_revmap.setdefault(issue_id, set()).add(issue_num)`. -/
def revmapAdd (rm : List (String × List String)) (k v : String) :
    List (String × List String) :=
  assocSet rm k (setAdd ((assocFind rm k).getD []) v)

/-- Processing of a single frontier identifier inside `_gather` (lines
366-398).  The second component of the state pair is the `related` set of the
current round (the next frontier).  A failed query is skipped.  For a pull
request the title and the body lines are scanned with `issue_re`; matches with
an ellipsis or without a hash (`bp-NNN`) are ignored; each surviving id is
recorded in the related set of the issue and in the reverse map, and enters
the next frontier only if the issue map has no entry for it yet.  The issue
map entry for the queried id is written after the scan. -/
def gatherOne (tracker : Tracker) (st : GatherSt × List String)
    (issueNum : String) : GatherSt × List String :=
  let st1 := { st.1 with queries := st.1.queries ++ [issueNum] }
  match tracker issueNum with
  | none => (st1, st.2)
  | some raw =>
    let kind := if raw.pull then IssueKind.PR else IssueKind.ISSUE
    if kind = IssueKind.PR then
      let lines := raw.title :: strSplitlines (raw.body.getD "")
      let scanned := lines.foldl
        (fun (acc : List String × List (String × List String) × List String) line =>
          (findAll line).foldl
            (fun acc2 m =>
              if m.ell || !strContainsChar m.full '#' then acc2
              else
                let id2 := lstripHash m.full
                let rel := setAdd acc2.1 id2
                let rm := revmapAdd acc2.2.1 id2 issueNum
                let frontier :=
                  if (assocFind st1.issueData id2).isSome then acc2.2.2
                  else setAdd acc2.2.2 id2
                (rel, rm, frontier))
            acc)
        ([], st1.revmap, st.2)
      let issue : Issue :=
        { kind := kind, title := raw.title, userLogin := raw.userLogin,
          body := raw.body, closedAt := raw.closedAt, related := scanned.1 }
      ({ st1 with
          issueData := assocSet st1.issueData issueNum issue,
          revmap := scanned.2.1 },
        scanned.2.2)
    else
      let issue : Issue :=
        { kind := kind, title := raw.title, userLogin := raw.userLogin,
          body := raw.body, closedAt := raw.closedAt, related := [] }
      ({ st1 with issueData := assocSet st1.issueData issueNum issue }, st.2)

/-- The recursive `_gather` (lines 364-402): process the frontier, then
recurse on the related set discovered this round when it is nonempty.  The
Python recursion terminates because a given id can enter at most two
frontiers; the fuel argument is an embedding artifact and every use below
supplies far more fuel than the number of rounds taken. -/
def gather (tracker : Tracker) : Nat → List String → GatherSt → GatherSt
  | 0, _, st => st
  | fuel + 1, frontierIds, st =>
    let stepped := frontierIds.foldl (gatherOne tracker) (st, [])
    if stepped.2.isEmpty then stepped.1
    else gather tracker fuel stepped.2 stepped.1

/-- `__query_issues(issue_nums)`: returns the issue map, the reverse map and
the query log. -/
def queryIssues (tracker : Tracker) (issueNums : List String) : GatherSt :=
  gather tracker 100 issueNums { issueData := [], revmap := [], queries := [] }

/-! ## Relationship Walker (`Changelog.__walk_issues`, lines 408-436) -/

/-- The related set recorded for a walked item, read through a defaulted
lookup as at line 424 (an item without the key contributes nothing). -/
def relatedOf (issues : List (String × Issue)) (item : String) : List String :=
  ((assocFind issues item).map Issue.related).getD []

/-- The kind recorded for an identifier, when the issue map has it. -/
def kindOf (issues : List (String × Issue)) (item : String) : Option IssueKind :=
  (assocFind issues item).map Issue.kind

/-- The recursive `_walk` closure (lines 414-429), returning the walked set
and the number of expansion rounds executed.  The level counter starts at 0
and is incremented on entry; a call entered with `level + 1 > 10` logs a
warning and returns without expanding (and counts no round).  Items absent
from the issue map are skipped; the related sets of the walked items are
collected, already-walked ids are subtracted, and the walk recurses only when
new ids remain.  The structural fuel argument is an embedding artifact: the
depth guard alone keeps the recursion at most 10 rounds deep, so any fuel of
at least 11 behaves identically. -/
def walkAux (issues : List (String × Issue)) :
    Nat → List String → List String → Nat → List String × Nat
  | 0, _, walked, _ => (walked, 0)
  | fuel + 1, toWalk, walked, level =>
    if 10 < level + 1 then (walked, 0)
    else
      let hits := toWalk.filter (fun i => (assocFind issues i).isSome)
      let walked2 := hits.foldl setAdd walked
      let related := hits.foldl (fun acc i => (relatedOf issues i).foldl setAdd acc) []
      let related2 := related.filter (fun i => !walked2.contains i)
      if related2.isEmpty then (walked2, 1)
      else
        let r := walkAux issues fuel related2 walked2 (level + 1)
        (r.1, r.2 + 1)

/-- The walked set accumulated by `_walk(to_walk)`. -/
def walkedOf (issues : List (String × Issue)) (toWalk : List String) : List String :=
  (walkAux issues 11 toWalk [] 0).1

/-- The number of expansion rounds `_walk(to_walk)` executes. -/
def walkRounds (issues : List (String × Issue)) (toWalk : List String) : Nat :=
  (walkAux issues 11 toWalk [] 0).2

/-- One step of the bucket loop (lines 432-434): append the item to the bucket
of its recorded type.  Every walked item has an entry in the issue map (the
walk only admits such items; on any other input CPython would raise KeyError
here), so the fall-through branch is unreachable from `walkIssues`. -/
def bucketAppend (issues : List (String × Issue)) (st : List String × List String)
    (item : String) : List String × List String :=
  match kindOf issues item with
  | some IssueKind.PR => (st.1 ++ [item], st.2)
  | some IssueKind.ISSUE => (st.1, st.2 ++ [item])
  | none => st

/-- `__walk_issues(issues, to_walk)`: walk, then bucket the sorted walked set
by kind and return the PR bucket followed by the ISSUE bucket. -/
def walkIssues (issues : List (String × Issue)) (toWalk : List String) : List String :=
  let buckets := (sortStrs (walkedOf issues toWalk)).foldl (bucketAppend issues) ([], [])
  buckets.1 ++ buckets.2

/-! ## Report Assembler (`Changelog.build`, lines 556-754) -/

/-- `datetime.strptime(s, gh_datetime_format)` followed by
`strftime(report_datetime_format)`: accepts the shape
`YYYY-MM-DDTHH:MM:SSZ` and renders `YYYY-MM-DD HH:MM:SS UTC`.  The embedding
checks the shape only, not calendar ranges; a failure models the ValueError
branch of the source. -/
def parseGhTime (s : String) : Option String :=
  match s.toList with
  | [y1, y2, y3, y4, '-', m1, m2, '-', d1, d2, 'T',
     h1, h2, ':', n1, n2, ':', s1, s2, 'Z'] =>
    if [y1, y2, y3, y4, m1, m2, d1, d2, h1, h2, n1, n2, s1, s2].all Char.isDigit then
      some (String.mk [y1, y2, y3, y4, '-', m1, m2, '-', d1, d2, ' ',
                       h1, h2, ':', n1, n2, ':', s1, s2] ++ " UTC")
    else none
  | _ => none

/-- `__split_repo_and_issue(issue)` (lines 333-340): strip leading hashes,
split on the hash; anything but exactly two parts raises ValueError and falls
back to the home repository with the original string as the number. -/
def splitRepoAndIssue (issue : String) : String × String :=
  match splitOnChar '#' (lstripHash issue).toList with
  | [repo, num] => (repo, num)
  | _ => ("saltstack/salt", issue)

/-- `__linkify(text)` (lines 277-282). -/
def linkify (text : String) : String :=
  "`" ++ text ++ "`_"

/-- The fallback for a `__format_issue` call whose key is absent from the
issue map.  CPython would raise KeyError there; the only call site that can
reach this case is the explicitly appended merge PR number (line 615) when it
was never resolved, which no claim below exercises. -/
def missingIssue : Issue :=
  { kind := IssueKind.ISSUE, title := "", userLogin := "", body := none,
    closedAt := none, related := [] }

/-- `__format_issue(issue_data, issue_id, formatted_refs)` (lines 209-217). -/
def formatIssue (issueData : List (String × Issue)) (issueId fr : String) : String :=
  let d := (assocFind issueData (lstripHash issueId)).getD missingIssue
  "**" ++ kindStr d.kind ++ "** " ++
    (if strContainsChar issueId '#' then issueId else "#" ++ issueId) ++
    ": (*" ++ d.userLogin ++ "*) " ++ d.title ++ fr

/-- The characters before the first star of the graph prefix, when a star is
present (`re.sub` with pattern star-dot-star, count 1, replacement `* `). -/
def beforeStar : List Char → Option (List Char)
  | [] => none
  | c :: cs =>
    if c = '*' then some []
    else (beforeStar cs).map (c :: ·)

/-- Lines 582-598: match the leading `[^a-z0-9]+` run; when it is empty the
line is left alone (the AttributeError branch); otherwise the first star and
everything after it inside the run are replaced by a star and a space, every
other run character becomes a space, and the line is rebuilt with a two-space
indent.  (The final `prefix` rebinding of line 598 is dead and omitted.) -/
def rewriteLogLine (line : String) : String :=
  let cs := line.toList
  let pfx := cs.takeWhile (fun c => !(c.isLower || c.isDigit))
  if pfx.isEmpty then line
  else
    let rest := cs.drop pfx.length
    let pfx2 :=
      match beforeStar pfx with
      | none => pfx
      | some before => before ++ [ '*', ' ' ]
    let pfx3 := pfx2.map (fun c => if c = '*' then c else ' ')
    String.mk ([ ' ', ' ' ] ++ pfx3 ++ rest)

/-- `re.search` for the pattern `pull request #` followed by five digits
(line 605): leftmost position where the literal is followed by at least five
digits; the group is those five digits. -/
def searchPull5Aux : Nat → List Char → Option String
  | 0, _ => none
  | _ + 1, [] => none
  | fuel + 1, c :: cs =>
    let here := c :: cs
    if List.take 14 here == "pull request #".toList
        && (List.take 5 (List.drop 14 here)).length = 5
        && (List.take 5 (List.drop 14 here)).all Char.isDigit then
      some (String.mk (List.take 5 (List.drop 14 here)))
    else
      searchPull5Aux fuel cs

/-- The merge PR number extracted from a top-level bullet, or the empty string
on no match (the AttributeError branch of lines 604-607). -/
def searchPull5 (content : String) : String :=
  (searchPull5Aux (content.toList.length + 1) content.toList).getD ""

/-- Line 613: the seed identifiers handed to the walker for a top-level
bullet are the numeric portions of every `issue_re` match of the line, with
no ellipsis filtering.  (The `line_issues` set of line 600 is computed from
the same matches but never used afterwards.) -/
def buildWalkSeeds (line : String) : List String :=
  (findAll line).map RefMatch.num

/-- State threaded through the per-line report loop of `build`. -/
structure BuildSt where
  merges : Nat
  issuesN : Nat
  pullsN : Nat
  result : List String
deriving DecidableEq, Repr

/-- Lines 617-657: emit the formatted entry for one walked reference.
The nested indent is dropped for the merge PR itself and for ISSUE-kind ids;
the closure timestamp is added only for the merge PR id when present and
parseable (KeyError and ValueError are swallowed); the refs annotation joins
the reverse-map set for the id when there is one; the statistics counters are
bumped by substring tests on the formatted entry. -/
def emitRef (issueData : List (String × Issue)) (revmap : List (String × List String))
    (issueNum : String) (st : BuildSt) (ref : String) : BuildSt :=
  let pfx :=
    if ref = issueNum || kindOf issueData ref == some IssueKind.ISSUE then ""
    else "  "
  let result :=
    if ref = issueNum then
      match ((assocFind issueData ref).bind Issue.closedAt).bind parseGhTime with
      | some t => st.result ++ [pfx ++ "  @ *" ++ t ++ "*"]
      | none => st.result
    else st.result
  let fr :=
    match assocFind revmap ref with
    | some l => " (refs: " ++ String.intercalate ", " (l.map ("#" ++ ·)) ++ ")"
    | none => ""
  let formatted := formatIssue issueData ref fr
  let issuesN := if strContains formatted "ISSUE" then st.issuesN + 1 else st.issuesN
  let pullsN :=
    if !strContains formatted "ISSUE" && strContains formatted "PR" then st.pullsN + 1
    else st.pullsN
  { merges := st.merges, issuesN := issuesN, pullsN := pullsN,
    result := result ++ [pfx ++ "* " ++ formatted, ""] }

/-- One iteration of the report loop (lines 569-660) over a log line, oldest
first.  The merge counter is bumped on the marker substring; before the first
merge is seen the synthetic two-space indent is applied; the graph prefix is
normalized; a top-level bullet emits its own line (only when a five-digit
merge PR number was found) followed by the walked references, appending the
merge PR number when the walk did not return it; any other starred line is
passed through shifted by two characters. -/
def processLogLine (issueData : List (String × Issue))
    (revmap : List (String × List String)) (st : BuildSt) (line : String) : BuildSt :=
  let merges :=
    if strContains line "Merge pull request" then st.merges + 1 else st.merges
  let line := if merges = 0 then "  " ++ line else line
  let line := rewriteLogLine line
  if strStartsWith line "  * " then
    let content := strDrop line 4
    let issueNum := searchPull5 content
    let result := if issueNum ≠ "" then st.result ++ [line, ""] else st.result
    let refs := walkIssues issueData (buildWalkSeeds line)
    let refs :=
      if issueNum ≠ "" && !refs.contains issueNum then refs ++ [issueNum] else refs
    refs.foldl (emitRef issueData revmap issueNum)
      { merges := merges, issuesN := st.issuesN, pullsN := st.pullsN, result := result }
  else if strContainsChar line '*' then
    { merges := merges, issuesN := st.issuesN, pullsN := st.pullsN,
      result := st.result ++ [strDrop line 2, ""] }
  else
    { st with merges := merges }

/-! ### Link pass (lines 664-703) -/

/-- `set(self.issue_re.findall(line))`: the distinct match tuples of a line.
CPython iterates the set in an unspecified order; the embedding keeps the
first-occurrence order, which the claims below are insensitive to. -/
def dedupMatches (ms : List RefMatch) : List RefMatch :=
  ms.foldl (fun acc m => if m ∈ acc then acc else acc ++ [m]) []

/-- The RST link-target definition recorded for an issue identifier
(lines 678-685). -/
def issueLinkLine (issueData : List (String × Issue)) (issueId num : String) : String :=
  ".. _`" ++ issueId ++ "`: https://github.com/" ++
    (splitRepoAndIssue issueId).1 ++ "/" ++
    (if kindOf issueData (lstripHash issueId) == some IssueKind.PR then "pull"
     else "issues") ++ "/" ++ num

/-- The RST link-target definition recorded for a GitHub user (lines
696-699). -/
def userLinkLine (user : String) : String :=
  ".. _`" ++ user ++ "`: https://github.com/" ++ user

/-- Lines 671-685 for one line: each distinct match that is not an ellipsis
artifact, contains a hash, and has resolved issue data gets rewritten into a
link (with backslashes doubled afterwards) and contributes a link-target
definition. -/
def applyIssueLinks (issueData : List (String × Issue)) :
    List RefMatch → String → List String → String × List String
  | [], line, links => (line, links)
  | m :: rest, line, links =>
    if m.ell || !strContainsChar m.full '#'
        || !(assocFind issueData (lstripHash m.full)).isSome then
      applyIssueLinks issueData rest line links
    else
      let line2 := strReplace (strReplace line m.full (linkify m.full)) "\\" "\\\\"
      let links2 := setAdd links (issueLinkLine issueData m.full m.num)
      applyIssueLinks issueData rest line2 links2

/-- Attempt to match `user_re`,
`(\d+`_: \()(?:\*)([^*]+)(?:\*)(\))`, at the head of `cs`: a nonempty digit
run, the literal backtick-underscore-colon-space-paren, a star, a nonempty
starless run, a star and a closing paren.  Returns the digit run, the user
name and the rest.  Only the maximal digit and starless runs can be followed
by the respective literals, so no backtracking arises. -/
def matchUserAt (cs : List Char) : Option (List Char × List Char × List Char) :=
  let ds := cs.takeWhile Char.isDigit
  if ds.isEmpty then none
  else
    let r1 := cs.drop ds.length
    if List.take 5 r1 == "`_: (".toList then
      match r1.drop 5 with
      | '*' :: r2 =>
        let name := r2.takeWhile (· ≠ '*')
        if name.isEmpty then none
        else
          match r2.drop name.length with
          | '*' :: ')' :: rest => some (ds, name, rest)
          | _ => none
      | _ => none
    else none

/-- `self.user_re.search(line)`: group 2 of the leftmost match. -/
def userSearchAux : Nat → List Char → Option String
  | 0, _ => none
  | _ + 1, [] => none
  | fuel + 1, c :: cs =>
    match matchUserAt (c :: cs) with
    | some (_, name, _) => some (String.mk name)
    | none => userSearchAux fuel cs

/-- The user name extracted by `user_re.search`, when the line has one. -/
def userSearch (line : String) : Option String :=
  userSearchAux (line.toList.length + 1) line.toList

/-- The `user_re.sub` call of line 695: rewrite every match of `user_re`,
keeping groups 1 and 3 and wrapping group 2 in backtick-underscore link
markup. -/
def userSubAux : Nat → List Char → List Char
  | 0, cs => cs
  | _ + 1, [] => []
  | fuel + 1, c :: cs =>
    match matchUserAt (c :: cs) with
    | some (ds, name, rest) =>
      ds ++ "`_: (".toList ++ "`".toList ++ name ++ "`_)".toList ++ userSubAux fuel rest
    | none => c :: userSubAux fuel cs

/-- The rewritten line after the user-link substitution. -/
def userSub (line : String) : String :=
  String.mk (userSubAux (line.toList.length + 1) line.toList)

/-- Lines 687-699 for one line: on a `user_re` hit the user is collected into
the contributors set only when the line carries the bold PR tag, the line is
rewritten, and a user link-target definition is recorded. -/
def applyUserLink (line : String) (links contributors : List String) :
    String × List String × List String :=
  match userSearch line with
  | none => (line, links, contributors)
  | some user =>
    let contributors2 :=
      if strContains line "**PR**" then setAdd contributors user else contributors
    (userSub line, setAdd links (userLinkLine user), contributors2)

/-- One iteration of the second pass for one built line: issue links, then
the user link; the rewritten line is appended and both sets are threaded. -/
def linkPassStep (issueData : List (String × Issue))
    (acc : List String × List String × List String) (line : String) :
    List String × List String × List String :=
  let step := applyIssueLinks issueData (dedupMatches (findAll line)) line acc.2.1
  let step2 := applyUserLink step.1 step.2 acc.2.2
  (acc.1 ++ [step2.1], step2.2.1, step2.2.2)

/-- The whole second pass (lines 664-703) over the built entries: rewrites
each line and accumulates the link-target set and the contributors set. -/
def linkPass (issueData : List (String × Issue)) (result : List String) :
    List String × List String × List String :=
  result.foldl (linkPassStep issueData) ([], [], [])

/-- Lines 737-745: the count of trailing built lines (leading lines of the
reversed report body) that do not start with a star; those are the initial
ungrouped commits whose indentation is stripped. -/
def leadingNonStarCount (rev : List String) : Nat :=
  (rev.takeWhile (fun l => !strStartsWith l "*")).length

/-- `Changelog.build` without the data-gathering step: assemble the report
lines from the captured timestamp, log snapshot, issue map and reverse map
(lines 561-754, returning the lines that `build` joins with newlines). -/
def buildFrom (revRange timestamp : String) (gitLog : List String)
    (issueData : List (String × Issue)) (revmap : List (String × List String)) :
    List String :=
  let st := gitLog.reverse.foldl (processLogLine issueData revmap)
    { merges := 0, issuesN := 0, pullsN := 0, result := [] }
  let passed := linkPass issueData st.result
  let resultLines := passed.1
  let links := passed.2.1
  let contributors := passed.2.2
  let changesLine := "Changelog for " ++ revRange
  let rev := resultLines.reverse
  let k := leadingNonStarCount rev
  ["Statistics", "==========", ""]
  ++ ["- Total Merges: **" ++ toString st.merges ++ "**"]
  ++ ["- Total Issue References: **" ++ toString st.issuesN ++ "**"]
  ++ ["- Total PR References: **" ++ toString st.pullsN ++ "**", ""]
  ++ ["- Contributors: **" ++ toString contributors.length ++ "** (" ++
      String.intercalate ", " ((sortStrs contributors).map linkify) ++ ")"]
  ++ ["", "", "INSERT RELEASE NOTES BODY HERE", "", ""]
  ++ [changesLine, repeatChar '=' changesLine.length, ""]
  ++ ["*Generated at: " ++ ((parseGhTime timestamp).getD "") ++ "*"]
  ++ (rev.take k).map strLstrip ++ rev.drop k
  ++ (if links.isEmpty then [] else [""] ++ sortStrs links)
  ++ [""]

/-- `build()` returns the joined report (line 754). -/
def buildChangelog (revRange timestamp : String) (gitLog : List String)
    (issueData : List (String × Issue)) (revmap : List (String × List String)) :
    String :=
  String.intercalate "\n" (buildFrom revRange timestamp gitLog issueData revmap)

/-! ## Issue Store / Cache (lines 142-151, 219-275, 508-554)

The cache entry serialized by `write_cache` is the dict of lines 268-273; the
value of a `set` field is rendered by `JSONSetEncoder.default` as its sorted
list.  `read_cache` parses the JSON back and `__get_issue_data` extracts the
four entry keys, falling back to a full resolution on KeyError. -/

/-- The JSON values occurring in a cache entry. -/
inductive Json where
  | null
  | bool (b : Bool)
  | str (s : String)
  | arr (xs : List Json)
  | obj (fields : List (String × Json))

/-- `json.dump` of a string-or-null field. -/
def encodeOptStr : Option String → Json
  | none => Json.null
  | some s => Json.str s

/-- The serialized form of the `type` field. -/
def encodeKind (k : IssueKind) : Json :=
  Json.str (kindStr k)

/-- The serialized form of one issue dict (the projection the program reads;
the set-valued `related` field goes through `JSONSetEncoder` and is written
as its sorted list). -/
def encodeIssue (i : Issue) : Json :=
  Json.obj
    [("type", encodeKind i.kind),
     ("title", Json.str i.title),
     ("user", Json.obj [("login", Json.str i.userLogin)]),
     ("body", encodeOptStr i.body),
     ("closed_at", encodeOptStr i.closedAt),
     ("related", Json.arr ((sortStrs i.related).map Json.str))]

/-- A captured run of the pipeline: exactly the dict passed to `write_cache`
at lines 268-273. -/
structure CacheEntry where
  timestamp : String
  gitLog : List String
  issueData : List (String × Issue)
  revmap : List (String × List String)
deriving DecidableEq

/-- `json.dump(data, .., cls=JSONSetEncoder)` of a cache entry: dict keys in
insertion order; the set values of the reverse map are written sorted. -/
def encodeCacheEntry (e : CacheEntry) : Json :=
  Json.obj
    [("timestamp", Json.str e.timestamp),
     ("git_log_output", Json.arr (e.gitLog.map Json.str)),
     ("issue_data", Json.obj (e.issueData.map (fun p => (p.1, encodeIssue p.2)))),
     ("issue_revmap",
      Json.obj (e.revmap.map (fun p => (p.1, Json.arr ((sortStrs p.2).map Json.str)))))]

/-- Collect an optional value for every element, failing when any element
fails (the all-or-nothing shape of a JSON decode). -/
def optMapList {α β : Type} (f : α → Option β) : List α → Option (List β)
  | [] => some []
  | a :: as =>
    match f a, optMapList f as with
    | some b, some bs => some (b :: bs)
    | _, _ => none

/-- Reading a JSON string. -/
def jStr : Json → Option String
  | Json.str s => some s
  | _ => none

/-- Reading a string-or-null field. -/
def jOptStr : Json → Option (Option String)
  | Json.null => some none
  | Json.str s => some (some s)
  | _ => none

/-- Reading an array of strings. -/
def jStrList : Json → Option (List String)
  | Json.arr xs => optMapList jStr xs
  | _ => none

/-- Reading a `type` field back. -/
def decodeKind : Json → Option IssueKind
  | Json.str "PR" => some IssueKind.PR
  | Json.str "ISSUE" => some IssueKind.ISSUE
  | _ => none

/-- Reading one issue dict back into the modelled projection. -/
def decodeIssue (j : Json) : Option Issue :=
  match j with
  | Json.obj kvs => do
    let kind ← (assocFind kvs "type").bind decodeKind
    let title ← (assocFind kvs "title").bind jStr
    let login ←
      match assocFind kvs "user" with
      | some (Json.obj ukvs) => (assocFind ukvs "login").bind jStr
      | _ => none
    let body ← (assocFind kvs "body").bind jOptStr
    let closedAt ← (assocFind kvs "closed_at").bind jOptStr
    let related ← (assocFind kvs "related").bind jStrList
    some { kind := kind, title := title, userLogin := login, body := body,
           closedAt := closedAt, related := related }
  | _ => none

/-- Reading the issue map back. -/
def decodeIssueMap : Json → Option (List (String × Issue))
  | Json.obj kvs => optMapList (fun p => (decodeIssue p.2).map (fun i => (p.1, i))) kvs
  | _ => none

/-- Reading the reverse map back. -/
def decodeRevmap : Json → Option (List (String × List String))
  | Json.obj kvs => optMapList (fun p => (jStrList p.2).map (fun l => (p.1, l))) kvs
  | _ => none

/-- The cache-hit path of `__get_issue_data` (lines 225-234): extract the four
entry keys from the parsed JSON; any missing key raises KeyError, which the
source catches and answers with a full resolution (`none` here). -/
def decodeCacheEntry (j : Json) : Option CacheEntry :=
  match j with
  | Json.obj kvs => do
    let t ← (assocFind kvs "timestamp").bind jStr
    let log ← (assocFind kvs "git_log_output").bind jStrList
    let data ← (assocFind kvs "issue_data").bind (fun x => decodeIssueMap x)
    let rm ← (assocFind kvs "issue_revmap").bind (fun x => decodeRevmap x)
    some { timestamp := t, gitLog := log, issueData := data, revmap := rm }
  | _ => none

/-- The document a run assembles from a cache entry. -/
def buildFromEntry (revRange : String) (e : CacheEntry) : List String :=
  buildFrom revRange e.timestamp e.gitLog e.issueData e.revmap

/-- The observable states of the cache file when `read_cache` (lines 508-528)
runs: the open call may raise OSError with errno ENOENT (missing) or another
errno (unreadable), or TypeError (invalid path); a successfully read file may
be empty, fail to parse (ValueError from `json.loads`), or parse to a JSON
value. -/
inductive CacheFileState where
  | missing
  | unreadable
  | invalidPath
  | emptyFile
  | unparseable
  | valid (j : Json)

/-- `read_cache`: a missing file and an empty file yield the empty dict; every
other failure is logged and falls through to the `error` dict; a parsed file
yields its JSON.  All three exception classes the body can raise are caught,
so the function always returns a value.  (The source spells the ENOENT
constant `os.errno.ENOENT`, the accidental re-export of the errno module that
existed on the Python 3 versions the script targeted.) -/
def readCache : CacheFileState → Json
  | CacheFileState.missing => Json.obj []
  | CacheFileState.unreadable => Json.obj [("error", Json.bool true)]
  | CacheFileState.invalidPath => Json.obj [("error", Json.bool true)]
  | CacheFileState.emptyFile => Json.obj []
  | CacheFileState.unparseable => Json.obj [("error", Json.bool true)]
  | CacheFileState.valid j => j

/-- The outcome of the filesystem writes performed by `write_cache`
(lines 530-554): success, or an OSError while opening or writing, with the
flag recording whether its errno is ENOTDIR. -/
inductive WriteOutcome where
  | success
  | osError (notdir : Bool)
deriving DecidableEq

/-- A Python call result: a returned value or an uncaught exception, by
class name. -/
inductive PyResult (α : Type) where
  | ok (a : α)
  | raised (exc : String)
deriving DecidableEq

/-- `write_cache(data)`: on success the function returns True.  The handler
`except OSError:` at line 545 does not bind the exception, yet line 546 reads
`exc.errno`; since no name `exc` is in scope there, CPython raises NameError
from inside the handler on every OSError, and neither branch of the handler
nor the `return False` at line 554 is reached. -/
def writeCache (outcome : WriteOutcome) : PyResult Bool :=
  match outcome with
  | WriteOutcome.success => PyResult.ok true
  | WriteOutcome.osError _ => PyResult.raised "NameError"

/-! ## Concrete fixtures used by the claims -/

/-- A minimal issue record for walker fixtures. -/
def mkIssue (k : IssueKind) (rel : List String) : Issue :=
  { kind := k, title := "", userLogin := "", body := none, closedAt := none,
    related := rel }

/-- A stub tracker on which issue 100 is a pull request whose body mentions
its own number. -/
def c1Tracker : Tracker :=
  fun id =>
    if id = "100" then
      some { pull := true, title := "Self referencing change",
             body := some "carries over #100", userLogin := "alice",
             closedAt := none }
    else none

/-- The stub tracker of the end-to-end scenario: PR 100 references issue 50
in its body; 50 is a plain issue. -/
def c2Tracker : Tracker :=
  fun id =>
    if id = "100" then
      some { pull := true, title := "Fix the widget",
             body := some "This fixes #50", userLogin := "alice",
             closedAt := none }
    else if id = "50" then
      some { pull := false, title := "widget broken", body := some "",
             userLogin := "bob", closedAt := none }
    else none

/-- The two-line synthetic commit log of the end-to-end scenario. -/
def c2Log : List String :=
  ["* Merge pull request #100 ...", "* fix bug #50"]

/-- The resolution the pipeline computes for the scenario. -/
def c2St : GatherSt :=
  queryIssues c2Tracker (releaseIssuesOf c2Log)

/-- The document the pipeline assembles for the scenario. -/
def c2Report : List String :=
  buildFrom "v1..v2" "2018-01-01T00:00:00Z" c2Log c2St.issueData c2St.revmap

/-- A cyclic issue map: A and B reference each other. -/
def cycIssues : List (String × Issue) :=
  [("A", mkIssue IssueKind.PR ["B"]), ("B", mkIssue IssueKind.ISSUE ["A"])]

/-- A 12-link chain of related issues, longer than the depth ceiling. -/
def chainIssues : List (String × Issue) :=
  [("a01", mkIssue IssueKind.ISSUE ["a02"]), ("a02", mkIssue IssueKind.ISSUE ["a03"]),
   ("a03", mkIssue IssueKind.ISSUE ["a04"]), ("a04", mkIssue IssueKind.ISSUE ["a05"]),
   ("a05", mkIssue IssueKind.ISSUE ["a06"]), ("a06", mkIssue IssueKind.ISSUE ["a07"]),
   ("a07", mkIssue IssueKind.ISSUE ["a08"]), ("a08", mkIssue IssueKind.ISSUE ["a09"]),
   ("a09", mkIssue IssueKind.ISSUE ["a10"]), ("a10", mkIssue IssueKind.ISSUE ["a11"]),
   ("a11", mkIssue IssueKind.ISSUE ["a12"]), ("a12", mkIssue IssueKind.ISSUE [])]

/-- A concrete cache entry whose set-valued fields are in canonical order. -/
def w3Entry : CacheEntry :=
  { timestamp := "2018-01-01T00:00:00Z",
    gitLog := ["* Merge pull request #77777 from a/b"],
    issueData :=
      [("77777",
        { kind := IssueKind.PR, title := "A change", userLogin := "carol",
          body := some "ref #4", closedAt := some "2018-01-02T03:04:05Z",
          related := ["4"] }),
       ("4", mkIssue IssueKind.ISSUE [])],
    revmap := [("4", ["77777"])] }

/-- A one-entry issue map used to witness the link-table invariant. -/
def w9Issues : List (String × Issue) :=
  [("7", mkIssue IssueKind.ISSUE [])]

/-! ## Ordering lemmas for the canonical set model -/

theorem charsLe_total : ∀ as bs : List Char, charsLe as bs = true ∨ charsLe bs as = true := by
  intro as
  induction as with
  | nil => intro bs; left; rfl
  | cons a as ih =>
    intro bs
    cases bs with
    | nil => right; rfl
    | cons b bs =>
      rcases Nat.lt_trichotomy a.toNat b.toNat with h | h | h
      · left; simp [charsLe, h]
      · have h1 : ¬ a.toNat < b.toNat := by omega
        have h2 : ¬ b.toNat < a.toNat := by omega
        simpa [charsLe, h1, h2] using ih bs
      · right; simp [charsLe, h]

theorem charsLe_trans :
    ∀ as bs cs : List Char,
      charsLe as bs = true → charsLe bs cs = true → charsLe as cs = true := by
  intro as
  induction as with
  | nil => intro bs cs _ _; rfl
  | cons a as ih =>
    intro bs cs h1 h2
    cases bs with
    | nil => simp [charsLe] at h1
    | cons b bs =>
      cases cs with
      | nil => simp [charsLe] at h2
      | cons c cs =>
        by_cases hab : a.toNat < b.toNat
        · by_cases hbc : b.toNat < c.toNat
          · have hac : a.toNat < c.toNat := by omega
            simp [charsLe, hac]
          · by_cases hcb : c.toNat < b.toNat
            · simp [charsLe, hbc, hcb] at h2
            · have hac : a.toNat < c.toNat := by omega
              simp [charsLe, hac]
        · by_cases hba : b.toNat < a.toNat
          · simp [charsLe, hab, hba] at h1
          · by_cases hbc : b.toNat < c.toNat
            · have hac : a.toNat < c.toNat := by omega
              simp [charsLe, hac]
            · by_cases hcb : c.toNat < b.toNat
              · simp [charsLe, hbc, hcb] at h2
              · have h1c : charsLe as bs = true := by simpa [charsLe, hab, hba] using h1
                have h2c : charsLe bs cs = true := by simpa [charsLe, hbc, hcb] using h2
                have hac : ¬ a.toNat < c.toNat := by omega
                have hca : ¬ c.toNat < a.toNat := by omega
                simpa [charsLe, hac, hca] using ih bs cs h1c h2c

instance : IsTotal String strle :=
  ⟨fun a b => charsLe_total a.toList b.toList⟩

instance : IsTrans String strle :=
  ⟨fun a b c h1 h2 => charsLe_trans a.toList b.toList c.toList h1 h2⟩

theorem mem_sortStrs {x : String} {l : List String} : x ∈ sortStrs l ↔ x ∈ l :=
  List.mem_insertionSort strle

theorem sortStrs_sorted (l : List String) : List.Sorted strle (sortStrs l) :=
  List.sorted_insertionSort strle l

theorem mem_setAdd {x y : String} : ∀ {l : List String}, x ∈ setAdd l y ↔ x = y ∨ x ∈ l := by
  intro l
  induction l with
  | nil => simp [setAdd]
  | cons z zs ih =>
    by_cases h1 : y = z
    · subst h1
      have hs : setAdd (y :: zs) y = y :: zs := by simp [setAdd]
      rw [hs, List.mem_cons]
      tauto
    · by_cases h2 : strLeb y z = true
      · simp [setAdd, h1, h2, List.mem_cons]
      · simp only [setAdd, if_neg h1, if_neg h2, List.mem_cons, ih]
        tauto

theorem mem_foldl_setAdd {x : String} :
    ∀ (l acc : List String), x ∈ l.foldl setAdd acc ↔ x ∈ acc ∨ x ∈ l := by
  intro l
  induction l with
  | nil => simp
  | cons a as ih =>
    intro acc
    simp only [List.foldl_cons, ih, mem_setAdd, List.mem_cons]
    tauto

/-! ## Walker lemmas -/

theorem walkAux_rounds_le (issues : List (String × Issue)) :
    ∀ (fuel : Nat) (toWalk walked : List String) (level : Nat),
      (walkAux issues fuel toWalk walked level).2 ≤ 10 - level := by
  intro fuel
  induction fuel with
  | zero => intro toWalk walked level; simp [walkAux]
  | succ fuel ih =>
    intro toWalk walked level
    simp only [walkAux]
    split
    · simp
    · rename_i hlev
      split
      · simp
        omega
      · have h := ih
          ((toWalk.filter (fun i => (assocFind issues i).isSome)).foldl
              (fun acc i => (relatedOf issues i).foldl setAdd acc) [] |>.filter
            (fun i =>
              !((toWalk.filter (fun i => (assocFind issues i).isSome)).foldl setAdd
                  walked).contains i))
          ((toWalk.filter (fun i => (assocFind issues i).isSome)).foldl setAdd walked)
          (level + 1)
        simp only []
        omega

theorem walkAux_mem (issues : List (String × Issue)) :
    ∀ (fuel : Nat) (toWalk walked : List String) (level : Nat) (i : String),
      i ∈ (walkAux issues fuel toWalk walked level).1 →
        i ∈ walked ∨ (assocFind issues i).isSome = true := by
  intro fuel
  induction fuel with
  | zero =>
    intro toWalk walked level i h
    simp only [walkAux] at h
    exact Or.inl h
  | succ fuel ih =>
    intro toWalk walked level i h
    simp only [walkAux] at h
    split at h
    · exact Or.inl h
    · split at h
      · rcases (mem_foldl_setAdd _ walked).mp h with hw | hf
        · exact Or.inl hw
        · exact Or.inr (by simpa using (List.mem_filter.mp hf).2)
      · rcases ih _ _ _ _ h with hw | hs
        · rcases (mem_foldl_setAdd _ walked).mp hw with hw2 | hf
          · exact Or.inl hw2
          · exact Or.inr (by simpa using (List.mem_filter.mp hf).2)
        · exact Or.inr hs

theorem walkedOf_mem (issues : List (String × Issue)) (toWalk : List String)
    (i : String) (h : i ∈ walkedOf issues toWalk) :
    (assocFind issues i).isSome = true := by
  rcases walkAux_mem issues 11 toWalk [] 0 i h with hw | hs
  · simp at hw
  · exact hs

theorem bucketFold_eq (issues : List (String × Issue)) :
    ∀ (l : List String) (p q : List String),
      l.foldl (bucketAppend issues) (p, q)
        = (p ++ l.filter (fun i => decide (kindOf issues i = some IssueKind.PR)),
           q ++ l.filter (fun i => decide (kindOf issues i = some IssueKind.ISSUE))) := by
  intro l
  induction l with
  | nil => simp
  | cons a as ih =>
    intro p q
    simp only [List.foldl_cons, List.filter_cons]
    cases h : kindOf issues a with
    | none => simp [bucketAppend, h, ih]
    | some k => cases k <;> simp [bucketAppend, h, ih]

/-! ## Claim C4 -/

/-- C4: for every issue map and start set the walker terminates with at most
10 expansion rounds; on the two-cycle A-B it walks both ids in 2 rounds and
returns them normally, and on a 12-link chain it stops after exactly 10
rounds, returning the 10 ids walked so far rather than an error. -/
theorem walker_depth_guard :
    (∀ (issues : List (String × Issue)) (toWalk : List String),
        walkRounds issues toWalk ≤ 10)
    ∧ walkIssues cycIssues ["A"] = ["A", "B"]
    ∧ walkRounds cycIssues ["A"] = 2
    ∧ walkIssues chainIssues ["a01"]
        = ["a01", "a02", "a03", "a04", "a05", "a06", "a07", "a08", "a09", "a10"]
    ∧ walkRounds chainIssues ["a01"] = 10 := by
  refine ⟨fun issues toWalk => ?_, by decide, by decide, by decide, by decide⟩
  have h := walkAux_rounds_le issues 11 toWalk [] 0
  simpa [walkRounds] using h

/-! ## Claim C5 -/

/-- C5: the ordered list the walker returns is exactly the PR-kind walked ids
followed by the ISSUE-kind walked ids, each bucket sorted (as a sublist of the
sorted walked set), every listed id carries the stated kind, and the listed
ids are exactly the walked ids. -/
theorem walker_bucket_order (issues : List (String × Issue)) (toWalk : List String) :
    (walkIssues issues toWalk
        = (sortStrs (walkedOf issues toWalk)).filter
            (fun i => decide (kindOf issues i = some IssueKind.PR))
          ++ (sortStrs (walkedOf issues toWalk)).filter
            (fun i => decide (kindOf issues i = some IssueKind.ISSUE)))
    ∧ List.Sorted strle ((sortStrs (walkedOf issues toWalk)).filter
        (fun i => decide (kindOf issues i = some IssueKind.PR)))
    ∧ List.Sorted strle ((sortStrs (walkedOf issues toWalk)).filter
        (fun i => decide (kindOf issues i = some IssueKind.ISSUE)))
    ∧ (∀ i ∈ (sortStrs (walkedOf issues toWalk)).filter
          (fun i => decide (kindOf issues i = some IssueKind.PR)),
        kindOf issues i = some IssueKind.PR)
    ∧ (∀ i ∈ (sortStrs (walkedOf issues toWalk)).filter
          (fun i => decide (kindOf issues i = some IssueKind.ISSUE)),
        kindOf issues i = some IssueKind.ISSUE)
    ∧ (∀ i, i ∈ walkIssues issues toWalk ↔ i ∈ walkedOf issues toWalk) := by
  have heq : walkIssues issues toWalk
      = (sortStrs (walkedOf issues toWalk)).filter
          (fun i => decide (kindOf issues i = some IssueKind.PR))
        ++ (sortStrs (walkedOf issues toWalk)).filter
          (fun i => decide (kindOf issues i = some IssueKind.ISSUE)) := by
    unfold walkIssues
    rw [bucketFold_eq issues (sortStrs (walkedOf issues toWalk)) [] []]
    simp
  refine ⟨heq, ?_, ?_, ?_, ?_, ?_⟩
  · exact (sortStrs_sorted _).filter _
  · exact (sortStrs_sorted _).filter _
  · intro i hi
    exact of_decide_eq_true (List.mem_filter.mp hi).2
  · intro i hi
    exact of_decide_eq_true (List.mem_filter.mp hi).2
  · intro i
    rw [heq]
    constructor
    · intro h
      rcases List.mem_append.mp h with h2 | h2 <;>
        exact mem_sortStrs.mp (List.mem_filter.mp h2).1
    · intro h
      have hs := walkedOf_mem issues toWalk i h
      rcases hk : (assocFind issues i) with _ | d
      · rw [hk] at hs; simp at hs
      · have hmem : i ∈ sortStrs (walkedOf issues toWalk) := mem_sortStrs.mpr h
        have hkind : kindOf issues i = some d.kind := by simp [kindOf, hk]
        cases hd : d.kind
        · exact List.mem_append.mpr (Or.inl (List.mem_filter.mpr
            ⟨hmem, decide_eq_true (by rw [hkind, hd])⟩))
        · exact List.mem_append.mpr (Or.inr (List.mem_filter.mpr
            ⟨hmem, decide_eq_true (by rw [hkind, hd])⟩))

/-! ## Claim C6 -/

theorem addLineIssues_fold_mem :
    ∀ (ms : List RefMatch) (acc : List String) (s : String),
      s ∈ ms.foldl (fun acc2 m => if m.ell then acc2 else setAdd acc2 (extractKey m)) acc
        ↔ s ∈ acc ∨ ∃ m, m ∈ ms ∧ m.ell = false ∧ extractKey m = s := by
  intro ms
  induction ms with
  | nil => simp
  | cons m rest ih =>
    intro acc s
    simp only [List.foldl_cons]
    by_cases h : m.ell
    · rw [if_pos h, ih]
      constructor
      · rintro (ha | ⟨m2, hm2, he, hk⟩)
        · exact Or.inl ha
        · exact Or.inr ⟨m2, List.mem_cons_of_mem m hm2, he, hk⟩
      · rintro (ha | ⟨m2, hm2, he, hk⟩)
        · exact Or.inl ha
        · rcases List.mem_cons.mp hm2 with rfl | hm3
          · rw [h] at he; cases he
          · exact Or.inr ⟨m2, hm3, he, hk⟩
    · rw [if_neg h, ih]
      have hf : m.ell = false := by simpa using h
      constructor
      · rintro (ha | ⟨m2, hm2, he, hk⟩)
        · rcases mem_setAdd.mp ha with rfl | ha2
          · exact Or.inr ⟨m, List.mem_cons_self m rest, hf, rfl⟩
          · exact Or.inl ha2
        · exact Or.inr ⟨m2, List.mem_cons_of_mem m hm2, he, hk⟩
      · rintro (ha | ⟨m2, hm2, he, hk⟩)
        · exact Or.inl (mem_setAdd.mpr (Or.inr ha))
        · rcases List.mem_cons.mp hm2 with rfl | hm3
          · exact Or.inl (mem_setAdd.mpr (Or.inl hk.symm))
          · exact Or.inr ⟨m2, hm3, he, hk⟩

/-- C6: the candidate-identifier set the extractor produces for a line
consists exactly of the keys of the non-ellipsis matches; a match whose
optional trailing-ellipsis group fired contributes nothing. -/
theorem extractor_ellipsis_guard (line : String) (s : String) :
    s ∈ addLineIssues [] line
      ↔ ∃ m, m ∈ findAll line ∧ m.ell = false ∧ extractKey m = s := by
  unfold addLineIssues
  rw [addLineIssues_fold_mem]
  simp

/-! ## Claim C10 -/

set_option maxHeartbeats 1000000 in
/-- C10: the walker seeds computed for a top-level bullet in `build` are the
numeric portions of all `issue_re` matches of the line, with no truncation
filter: on a line whose only match ends in an ellipsis the seed list still
carries the number, while the extraction step produces the empty set. -/
theorem build_seeds_unfiltered :
    (∀ (line : String) (m : RefMatch), m ∈ findAll line → m.num ∈ buildWalkSeeds line)
    ∧ buildWalkSeeds "  * fix #2…" = ["2"]
    ∧ addLineIssues [] "  * fix #2…" = [] := by
  refine ⟨fun line m hm => ?_, by decide, by decide⟩
  exact List.mem_map_of_mem RefMatch.num hm

set_option maxHeartbeats 1000000 in
/-- Witness for C10 at a concrete truncated match. -/
theorem build_seeds_unfiltered_witness :
    ({ full := "#2", num := "2", ell := true } : RefMatch).num ∈ buildWalkSeeds "  * fix #2…" :=
  build_seeds_unfiltered.1 "  * fix #2…" _ (by decide)

/-! ## Claim C1 -/

set_option maxHeartbeats 2000000 in
/-- C1: the resolver queries the tracker twice for the same identifier when a
pull request in the frontier mentions an identifier that the same gather
round has not yet stored: seeding `__query_issues` with the self-referencing
pull request 100 produces two `__query_github` calls for id 100. -/
theorem resolver_queries_twice :
    (queryIssues c1Tracker ["100"]).queries = ["100", "100"]
    ∧ ((queryIssues c1Tracker ["100"]).queries).count "100" = 2 := by
  constructor <;> decide

/-! ## Claim C2 -/

set_option maxHeartbeats 16000000 in
/-- C2: on the two-line synthetic log with the stub tracker, the assembled
document reports exactly 1 merge, 1 issue reference and 1 PR reference, and
its link-target block defines both identifiers. -/
theorem end_to_end_scenario :
    "- Total Merges: **1**" ∈ c2Report
    ∧ "- Total Issue References: **1**" ∈ c2Report
    ∧ "- Total PR References: **1**" ∈ c2Report
    ∧ ".. _`#100`: https://github.com/saltstack/salt/pull/100" ∈ c2Report
    ∧ ".. _`#50`: https://github.com/saltstack/salt/issues/50" ∈ c2Report := by
  decide

/-! ## Claim C3 -/

theorem jStrList_map_str (l : List String) :
    jStrList (Json.arr (l.map Json.str)) = some l := by
  induction l with
  | nil => rfl
  | cons a as ih =>
    have ih2 : optMapList jStr (as.map Json.str) = some as := by
      simpa [jStrList] using ih
    simp [jStrList, optMapList, jStr, ih2]

theorem decodeIssue_encodeIssue (i : Issue) (h : sortStrs i.related = i.related) :
    decodeIssue (encodeIssue i) = some i := by
  obtain ⟨kind, title, login, body, closedAt, related⟩ := i
  simp only at h
  cases kind <;> cases body <;> cases closedAt <;>
    simp [decodeIssue, encodeIssue, encodeKind, kindStr, encodeOptStr, decodeKind,
          assocFind, jStr, jOptStr, h, jStrList_map_str]

theorem decodeIssueMap_encode (l : List (String × Issue))
    (h : ∀ p ∈ l, sortStrs p.2.related = p.2.related) :
    decodeIssueMap (Json.obj (l.map (fun p => (p.1, encodeIssue p.2)))) = some l := by
  induction l with
  | nil => rfl
  | cons p ps ih =>
    have h1 := h p (List.mem_cons_self p ps)
    have ih2 : optMapList (fun p => (decodeIssue p.2).map (fun i => (p.1, i)))
        (ps.map (fun p => (p.1, encodeIssue p.2))) = some ps := by
      simpa [decodeIssueMap] using ih (fun q hq => h q (List.mem_cons_of_mem p hq))
    simp [decodeIssueMap, optMapList, decodeIssue_encodeIssue p.2 h1, ih2]

theorem decodeRevmap_encode (l : List (String × List String))
    (h : ∀ p ∈ l, sortStrs p.2 = p.2) :
    decodeRevmap
        (Json.obj (l.map (fun p => (p.1, Json.arr ((sortStrs p.2).map Json.str)))))
      = some l := by
  induction l with
  | nil => rfl
  | cons p ps ih =>
    have h1 := h p (List.mem_cons_self p ps)
    have ih2 : optMapList (fun p => (jStrList p.2).map (fun l => (p.1, l)))
        (ps.map (fun p => (p.1, Json.arr ((sortStrs p.2).map Json.str)))) = some ps := by
      simpa [decodeRevmap] using ih (fun q hq => h q (List.mem_cons_of_mem p hq))
    simp [decodeRevmap, optMapList, h1, jStrList_map_str, ih2]

/-- C3: serializing a captured resolution to the cache and reading it back
(the write-then-read round trip of one pipeline run followed by a cached
rerun) reproduces the entry exactly, and therefore the rerun assembles the
identical document.  The hypotheses state that the set-valued fields are in
the canonical (sorted) order of the set model, which every resolution
produced by the embedding satisfies by construction. -/
theorem cache_roundtrip (e : CacheEntry)
    (hrel : ∀ p ∈ e.issueData, sortStrs p.2.related = p.2.related)
    (hrev : ∀ p ∈ e.revmap, sortStrs p.2 = p.2) :
    decodeCacheEntry (encodeCacheEntry e) = some e
    ∧ ∀ revRange : String,
        Option.map (buildFromEntry revRange) (decodeCacheEntry (encodeCacheEntry e))
          = some (buildFromEntry revRange e) := by
  obtain ⟨t, log, data, rm⟩ := e
  have hmain : decodeCacheEntry (encodeCacheEntry ⟨t, log, data, rm⟩)
      = some ⟨t, log, data, rm⟩ := by
    simp [decodeCacheEntry, encodeCacheEntry, assocFind, jStr, jStrList_map_str,
          decodeIssueMap_encode data hrel, decodeRevmap_encode rm hrev]
  exact ⟨hmain, fun revRange => by rw [hmain]; rfl⟩

set_option maxHeartbeats 2000000 in
/-- Witness for C3 at a concrete cache entry. -/
theorem cache_roundtrip_witness :
    decodeCacheEntry (encodeCacheEntry w3Entry) = some w3Entry
    ∧ ∀ revRange : String,
        Option.map (buildFromEntry revRange) (decodeCacheEntry (encodeCacheEntry w3Entry))
          = some (buildFromEntry revRange w3Entry) :=
  cache_roundtrip w3Entry (by decide) (by decide)

/-! ## Claim C7 -/

/-- C7: `write_cache` returns True on success, but on an OSError while
opening or writing the cache file it raises NameError out of the broken
handler instead of logging and returning False; no OSError outcome yields
the documented failure value. -/
theorem write_cache_handler_broken :
    writeCache WriteOutcome.success = PyResult.ok true
    ∧ writeCache (WriteOutcome.osError true) = PyResult.raised "NameError"
    ∧ writeCache (WriteOutcome.osError false) = PyResult.raised "NameError"
    ∧ ∀ b : Bool, writeCache (WriteOutcome.osError b) ≠ PyResult.ok false := by
  refine ⟨rfl, rfl, rfl, fun b => ?_⟩
  cases b <;> decide

/-! ## Claim C8 -/

/-- C8: on every degraded cache state -- missing file, unreadable file,
invalid path, empty file, unparseable content -- `read_cache` returns a dict
(never raises), and the returned dict carries no cache entry, so
`__get_issue_data` falls back to a full resolution. -/
theorem read_cache_failures_nonfatal :
    readCache CacheFileState.missing = Json.obj []
    ∧ readCache CacheFileState.emptyFile = Json.obj []
    ∧ readCache CacheFileState.unreadable = Json.obj [("error", Json.bool true)]
    ∧ readCache CacheFileState.invalidPath = Json.obj [("error", Json.bool true)]
    ∧ readCache CacheFileState.unparseable = Json.obj [("error", Json.bool true)]
    ∧ decodeCacheEntry (readCache CacheFileState.missing) = none
    ∧ decodeCacheEntry (readCache CacheFileState.unreadable) = none
    ∧ decodeCacheEntry (readCache CacheFileState.invalidPath) = none
    ∧ decodeCacheEntry (readCache CacheFileState.emptyFile) = none
    ∧ decodeCacheEntry (readCache CacheFileState.unparseable) = none :=
  ⟨rfl, rfl, rfl, rfl, rfl, rfl, rfl, rfl, rfl, rfl⟩

/-! ## Claim C9 -/

theorem applyIssueLinks_links_mem (issues : List (String × Issue)) :
    ∀ (ms : List RefMatch) (line : String) (links : List String) (s : String),
      s ∈ (applyIssueLinks issues ms line links).2 →
        s ∈ links
        ∨ ∃ id num, s = issueLinkLine issues id num
            ∧ (assocFind issues (lstripHash id)).isSome = true := by
  intro ms
  induction ms with
  | nil =>
    intro line links s h
    exact Or.inl h
  | cons m rest ih =>
    intro line links s h
    simp only [applyIssueLinks] at h
    split at h
    · exact ih _ _ _ h
    · rename_i hc
      rcases ih _ _ _ h with h2 | h2
      · rcases mem_setAdd.mp h2 with rfl | h3
        · right
          refine ⟨m.full, m.num, rfl, ?_⟩
          simp only [Bool.or_eq_true, Bool.not_eq_true', not_or] at hc
          cases hx : (assocFind issues (lstripHash m.full)).isSome with
          | false => exact absurd hx hc.2
          | true => rfl
        · exact Or.inl h3
      · exact Or.inr h2

theorem applyUserLink_links_mem (line : String) (links contributors : List String)
    (s : String) (h : s ∈ (applyUserLink line links contributors).2.1) :
    s ∈ links ∨ ∃ u, s = userLinkLine u := by
  unfold applyUserLink at h
  cases hu : userSearch line with
  | none =>
    rw [hu] at h
    exact Or.inl h
  | some u =>
    rw [hu] at h
    simp only at h
    rcases mem_setAdd.mp h with rfl | h2
    · exact Or.inr ⟨u, rfl⟩
    · exact Or.inl h2

theorem linkPass_links_mem (issues : List (String × Issue)) :
    ∀ (lines : List String) (acc : List String × List String × List String) (s : String),
      s ∈ (lines.foldl (linkPassStep issues) acc).2.1 →
        s ∈ acc.2.1
        ∨ (∃ id num, s = issueLinkLine issues id num
            ∧ (assocFind issues (lstripHash id)).isSome = true)
        ∨ ∃ u, s = userLinkLine u := by
  intro lines
  induction lines with
  | nil =>
    intro acc s h
    exact Or.inl h
  | cons line rest ih =>
    intro acc s h
    rw [List.foldl_cons] at h
    rcases ih _ _ h with h2 | h2
    · simp only [linkPassStep] at h2
      rcases applyUserLink_links_mem _ _ _ _ h2 with h3 | h3
      · rcases applyIssueLinks_links_mem issues _ _ _ _ h3 with h4 | h4
        · exact Or.inl h4
        · exact Or.inr (Or.inl h4)
      · exact Or.inr (Or.inr h3)
    · exact Or.inr h2

/-- C9: every line of the sorted link-target block assembled by the report is
either an issue-identifier link-target whose stripped identifier has an entry
in the resolved issue map, or a user link-target; no dangling issue link
targets exist, over every issue map and every list of built lines. -/
theorem link_table_no_dangling (issues : List (String × Issue))
    (resultLines : List String) (s : String)
    (h : s ∈ sortStrs (linkPass issues resultLines).2.1) :
    (∃ id num, s = issueLinkLine issues id num
        ∧ (assocFind issues (lstripHash id)).isSome = true)
    ∨ ∃ u, s = userLinkLine u := by
  have h2 := mem_sortStrs.mp h
  unfold linkPass at h2
  rcases linkPass_links_mem issues resultLines ([], [], []) s h2 with h3 | h3
  · simp at h3
  · exact h3

set_option maxHeartbeats 1000000 in
/-- Witness for C9 at a concrete issue map and line list. -/
theorem link_table_no_dangling_witness :
    (∃ id num, issueLinkLine w9Issues "#7" "7" = issueLinkLine w9Issues id num
        ∧ (assocFind w9Issues (lstripHash id)).isSome = true)
    ∨ ∃ u, issueLinkLine w9Issues "#7" "7" = userLinkLine u :=
  link_table_no_dangling w9Issues ["see #7"] (issueLinkLine w9Issues "#7" "7") (by decide)

/-- Witness for C5 at the cyclic fixture. -/
theorem walker_bucket_order_witness :
    "A" ∈ walkIssues cycIssues ["A"] ↔ "A" ∈ walkedOf cycIssues ["A"] :=
  (walker_bucket_order cycIssues ["A"]).2.2.2.2.2 "A"
